import Mathlib

/-!
Verification of the decode-and-normalize pipeline of `keyfinder_cli.cpp`
(keyfinder-cli). The definitions below are a shallow embedding of the
source: `fill_audio_data` (source lines 86-250), `SafeAVPacket::read`
(lines 57-75), the stream selection loop (lines 111-123), the channel
layout derivation (lines 147-150), the resampler configuration
(lines 152-157), `split` (lines 318-333) and `main` (lines 335-442).

External collaborators (libav and the KeyFinder library) are modelled by
small state types and scripts: the container is a list of raw packets,
the decoder is a script of per-call results (`avcodec_decode_audio4`
returns a consumed byte count that is negative for a bad packet, plus
an optional frame), and the resampler conversion is a function on
frames. `KeyFinder::AudioData` is modelled from the spec: an append-only
sample sequence with frame-rate/channel metadata and a write iterator.
C `int` fields are modelled as `Int`, sizes from the container as `Nat`.
Samples are 16-bit integers; the C++ widening cast `(float)` of an
`int16_t` is exact, so the float domain is modelled by `Int`.
-/

namespace KeyfinderCli

/-- Source line 23: `const int BAD_PACKET_THRESHOLD = 100;`. -/
def BAD_PACKET_THRESHOLD : Nat := 100

/-- Modelled from the spec: `SEMITONES` (from `keyfinder/constants.h`,
not part of this repository) is the number of semitones, 12; the profile
options read indices `0 .. SEMITONES-1`. -/
def SEMITONES : Nat := 12

/-- A decoded audio frame: the byte length of its primary data plane
(`audio_frame->linesize[0]`) and the plane contents viewed as 16-bit
samples (`(int16_t*) audio_frame->extended_data[0]`). -/
structure Frame where
  linesize0 : Nat
  plane0 : Nat → Int

/-- Source line 236: `sample_count = audio_frame->linesize[0] / 2`. -/
def sample_count (f : Frame) : Nat := f.linesize0 / 2

/-- The samples the append loop (lines 244-248) reads from a frame:
`sample_data[0] .. sample_data[sample_count - 1]`. -/
def frameSamples (f : Frame) : List Int :=
  (List.range (sample_count f)).map f.plane0

/-- Modelled from the spec: the external `KeyFinder::AudioData`
sample accumulator - an append-only sample sequence (float domain,
exact for 16-bit input, hence `Int`), fixed frame-rate/channel
metadata, and a write iterator. -/
structure AudioData where
  frameRate : Nat
  channels : Nat
  samples : List Int
  writeIdx : Nat
deriving DecidableEq

/-- Modelled from the spec: `AudioData::getSampleCount`. -/
def getSampleCount (a : AudioData) : Nat := a.samples.length

/-- Modelled from the spec: `AudioData::addToSampleCount` extends the
sample sequence by `n` entries. -/
def addToSampleCount (a : AudioData) (n : Nat) : AudioData :=
  { a with samples := a.samples ++ List.replicate n 0 }

/-- Modelled from the spec: `AudioData::resetIterators`. -/
def resetIterators (a : AudioData) : AudioData :=
  { a with writeIdx := 0 }

/-- Modelled from the spec: `AudioData::advanceWriteIterator n`. -/
def advanceWriteIterator (a : AudioData) (n : Nat) : AudioData :=
  { a with writeIdx := a.writeIdx + n }

/-- Modelled from the spec: `AudioData::setSampleAtWriteIterator`. -/
def setSampleAtWriteIterator (a : AudioData) (v : Int) : AudioData :=
  { a with samples := a.samples.set a.writeIdx v }

/-- The sample-writing loop of lines 244-248: starting at plane index
`i` with `r` samples still to write, set the sample at the write
iterator and advance it by one. -/
def writeLoop (g : Nat → Int) : Nat → Nat → AudioData → AudioData
  | _, 0, a => a
  | i, r + 1, a =>
      writeLoop g (i + 1) r (advanceWriteIterator (setSampleAtWriteIterator a (g i)) 1)

/-- Lines 239-248: append a (canonical) frame's samples to the
accumulator - record the old count, extend the length, reset and
position the write iterator at the old end, then write each sample. -/
def appendFrame (a : AudioData) (f : Frame) : AudioData :=
  let old := getSampleCount a
  let a1 := addToSampleCount a (sample_count f)
  let a2 := advanceWriteIterator (resetIterators a1) old
  writeLoop f.plane0 0 (sample_count f) a2

/-- A compressed unit as delivered by the container (demux order):
its stream index and payload size. -/
structure RawPacket where
  stream_index : Int
  size : Nat
deriving DecidableEq

/-- The fields of the held `AVPacket` that the source reads: stream
index, the data pointer (as an offset from the start of the fetched
payload) and the remaining size (a C `int`, so it may go negative
under the source's arithmetic). -/
structure PacketState where
  stream_index : Int
  dataOff : Int
  size : Int
deriving DecidableEq

/-- The packet after `av_init_packet` / `av_packet_unref` (libav resets
the stream index to 0) with a null data pointer and zero size; this is
also what a failed `av_read_frame` leaves behind at end of stream. -/
def blankPacket : PacketState :=
  { stream_index := 0, dataOff := 0, size := 0 }

/-- State of `SafeAVPacket::read`: the not-yet-fetched remainder of the
container, and the currently held packet. -/
structure ReadState where
  container : List RawPacket
  pkt : PacketState
deriving DecidableEq

/-- One iteration of the `while (true)` body of `SafeAVPacket::read`
(lines 59-70): release the held packet, then `av_read_frame` - on
success the next raw unit fills the packet, on exhaustion the packet is
left blank (data null, size 0, stream index 0). -/
def readStep (s : ReadState) : ReadState :=
  match s.container with
  | [] => { s with pkt := blankPacket }
  | p :: rest =>
      { container := rest,
        pkt := { stream_index := p.stream_index, dataOff := 0, size := (p.size : Int) } }

/-- The loop exit test of lines 71-73:
`if (inner_packet.stream_index == stream_index) break;`. -/
def breakCond (s : ReadState) (target : Int) : Bool :=
  s.pkt.stream_index == target

/-- Fuel-indexed run of the `SafeAVPacket::read` loop: `none` means the
loop has not exited within the given number of iterations. -/
def readFuel : Nat → ReadState → Int → Option ReadState
  | 0, _, _ => none
  | n + 1, s, target =>
      if breakCond (readStep s) target then some (readStep s)
      else readFuel n (readStep s) target

/-- The result of one `avcodec_decode_audio4` call, scripted: `bad` is
a negative consumed length, `ok n fr` is `n` consumed bytes plus an
optional produced frame (`frame_available`). -/
inductive DecodeResult where
  | bad
  | ok (consumed : Nat) (frame : Option Frame)

/-- Number of bad results in a decode script. -/
def badCount : List DecodeResult → Nat
  | [] => 0
  | DecodeResult.bad :: r => badCount r + 1
  | DecodeResult.ok _ _ :: r => badCount r

/-- State of the decode loop of lines 166-249. -/
structure LoopState where
  audio : AudioData
  container : List RawPacket
  pkt : PacketState
  current_packet_offset : Int
  back_packet_count : Nat

/-- Lines 166-170: fresh `SafeAVPacket` (blank), zero offset and bad
packet count, before the `while (true)` loop. -/
def initialLoopState (a : AudioData) (packets : List RawPacket) : LoopState :=
  { audio := a, container := packets, pkt := blankPacket,
    current_packet_offset := 0, back_packet_count := 0 }

/-- Outcome of the packet-refetch phase (lines 175-185): proceed to
decode, break out of the loop (end of stream), or hang inside
`SafeAVPacket::read`. -/
inductive FetchResult where
  | proceed (s : LoopState)
  | eof (s : LoopState)
  | hang (s : LoopState)

/-- The carried loop state of a fetch result. -/
def FetchResult.state : FetchResult → LoopState
  | FetchResult.proceed s => s
  | FetchResult.eof s => s
  | FetchResult.hang s => s

/-- Lines 175-185: once the offset has reached the held packet's size,
call `SafeAVPacket::read` (give it enough fuel to fetch every remaining
unit plus the end-of-stream step; beyond that the read loop cannot make
progress, so running out of that fuel models the read loop spinning
forever), reset the offset, and break when the fetched size is `<= 0`. -/
def fetchPhase (target : Int) (s : LoopState) : FetchResult :=
  if s.current_packet_offset ≥ s.pkt.size then
    match readFuel (s.container.length + 1) ⟨s.container, s.pkt⟩ target with
    | none => FetchResult.hang s
    | some r =>
        let s1 : LoopState :=
          { s with container := r.container, pkt := r.pkt, current_packet_offset := 0 }
        if s1.pkt.size ≤ 0 then FetchResult.eof s1 else FetchResult.proceed s1
  else FetchResult.proceed s

/-- How a run of the decode loop ended. `stuck` means the decode script
was exhausted while the loop still wanted to decode (a model artifact),
`readHang` that `SafeAVPacket::read` never returned. -/
inductive Outcome where
  | done
  | tooManyBadPackets
  | resampleConvertError
  | stuck
  | readHang
deriving DecidableEq

/-- Result of running the decode loop: final outcome and state, the
canonical frames appended to the accumulator in order, and the
unconsumed remainder of the decode script. -/
structure RunResult where
  outcome : Outcome
  state : LoopState
  frames : List Frame
  rest : List DecodeResult

/-- Lines 194-200 (after the threshold check passed): discard the rest
of the current packet - zero offset and zero packet size - so the next
iteration refetches; the bad packet counter has been incremented. -/
def badState (s1 : LoopState) : LoopState :=
  { s1 with back_packet_count := s1.back_packet_count + 1,
            current_packet_offset := 0,
            pkt := { s1.pkt with size := 0 } }

/-- Lines 203-209: add the consumed count to `current_packet_offset`,
then move the packet's data pointer forward and shrink its size by that
(cumulative) offset. -/
def seekState (s1 : LoopState) (n : Nat) : LoopState :=
  { s1 with current_packet_offset := s1.current_packet_offset + (n : Int),
            pkt := { s1.pkt with
              size := s1.pkt.size - (s1.current_packet_offset + (n : Int)),
              dataOff := s1.pkt.dataOff + (s1.current_packet_offset + (n : Int)) } }

/-- Lines 235-248: append the canonical frame to the accumulator. -/
def appendState (s2 : LoopState) (cf : Frame) : LoopState :=
  { s2 with audio := appendFrame s2.audio cf }

/-- The decode loop of lines 173-249, driven by the decode script.
Each iteration: the refetch phase (lines 175-185); then one decode
call. A negative consumed length (lines 192-201) bumps
`back_packet_count`, aborts when it exceeds `BAD_PACKET_THRESHOLD`,
and otherwise discards the rest of the packet (offset 0, size 0). A
nonnegative consumed length is added to `current_packet_offset`, and
the packet's size/data are moved by that cumulative offset
(lines 203-209). If a frame was produced it is converted unless the
codec's sample format is already S16 (lines 217-229), then appended
(lines 235-248). -/
def loopGo (fmtS16 : Bool) (conv : Frame → Option Frame) (target : Int) :
    List DecodeResult → LoopState → RunResult
  | [], s =>
    match fetchPhase target s with
    | FetchResult.hang s1 => ⟨Outcome.readHang, s1, [], []⟩
    | FetchResult.eof s1 => ⟨Outcome.done, s1, [], []⟩
    | FetchResult.proceed s1 => ⟨Outcome.stuck, s1, [], []⟩
  | DecodeResult.bad :: rest, s =>
    match fetchPhase target s with
    | FetchResult.hang s1 => ⟨Outcome.readHang, s1, [], DecodeResult.bad :: rest⟩
    | FetchResult.eof s1 => ⟨Outcome.done, s1, [], DecodeResult.bad :: rest⟩
    | FetchResult.proceed s1 =>
        if BAD_PACKET_THRESHOLD < s1.back_packet_count + 1 then
          ⟨Outcome.tooManyBadPackets,
            { s1 with back_packet_count := s1.back_packet_count + 1 }, [], rest⟩
        else
          loopGo fmtS16 conv target rest (badState s1)
  | DecodeResult.ok n fr :: rest, s =>
    match fetchPhase target s with
    | FetchResult.hang s1 => ⟨Outcome.readHang, s1, [], DecodeResult.ok n fr :: rest⟩
    | FetchResult.eof s1 => ⟨Outcome.done, s1, [], DecodeResult.ok n fr :: rest⟩
    | FetchResult.proceed s1 =>
        match fr with
        | none => loopGo fmtS16 conv target rest (seekState s1 n)
        | some f =>
            match (if fmtS16 then some f else conv f) with
            | none => ⟨Outcome.resampleConvertError, seekState s1 n, [], rest⟩
            | some cf =>
                let r := loopGo fmtS16 conv target rest (appendState (seekState s1 n) cf)
                ⟨r.outcome, r.state, cf :: r.frames, r.rest⟩

/-- The media type of a stream (`codec->codec_type`). -/
inductive MediaType where
  | audio
  | other
deriving DecidableEq

/-- The codec context's sample format (`codec_context->sample_fmt`);
only S16-or-not matters to the source. -/
inductive SampleFmt where
  | s16
  | fmt (code : Nat)
deriving DecidableEq

/-- The per-stream data the source reads: media type, stream index,
whether `avcodec_find_decoder` finds a decoder and `avcodec_open2`
succeeds, and the codec context's format fields. A channel layout of 0
means unset. -/
structure StreamInfo where
  media_type : MediaType
  index : Int
  codec_id_supported : Bool
  codec_open_ok : Bool
  sample_fmt : SampleFmt
  sample_rate : Nat
  channels : Nat
  channel_layout : Nat
deriving DecidableEq

/-- The stream selection loop of lines 111-123: scan the streams in
container order and take the first whose codec type is audio. -/
def selectAudioStream : List StreamInfo → Option StreamInfo
  | [] => none
  | st :: rest =>
      if st.media_type = MediaType.audio then some st else selectAudioStream rest

/-- Modelled from the spec: libav's `av_get_default_channel_layout` -
the standard layout implied by the channel count (1 → mono mask `0x4`,
2 → stereo mask `0x3`); other counts are modelled as a full n-bit
mask, which the claims do not depend on. -/
def av_get_default_channel_layout (channels : Nat) : Nat :=
  match channels with
  | 0 => 0
  | 1 => 4
  | 2 => 3
  | n + 3 => 2 ^ (n + 3) - 1

/-- Lines 147-150: if the codec context's channel layout is unset
(zero), populate it from the channel count. -/
def deriveChannelLayout (st : StreamInfo) : StreamInfo :=
  if st.channel_layout = 0 then
    { st with channel_layout := av_get_default_channel_layout st.channels }
  else st

/-- The six `av_opt_set_int` values of lines 152-157. -/
structure ResampleConfig where
  in_sample_fmt : SampleFmt
  in_sample_rate : Nat
  in_channel_layout : Nat
  out_sample_fmt : SampleFmt
  out_sample_rate : Nat
  out_channel_layout : Nat
deriving DecidableEq

/-- Lines 152-157: configure the resampler from the codec context -
output sample format S16, output rate and layout copied from the
input. -/
def configResampler (st : StreamInfo) : ResampleConfig :=
  { in_sample_fmt := st.sample_fmt,
    in_sample_rate := st.sample_rate,
    in_channel_layout := st.channel_layout,
    out_sample_fmt := SampleFmt.s16,
    out_sample_rate := st.sample_rate,
    out_channel_layout := st.channel_layout }

/-- The error taxonomy of the pipeline (each is a `std::runtime_error`
thrown by `fill_audio_data`). -/
inductive PipelineError where
  | OpenError
  | ProbeError
  | NoAudioStreamError
  | UnsupportedCodecError
  | CodecOpenError
  | ResampleOpenError
  | ResampleConvertError
  | TooManyBadPacketsError
deriving DecidableEq

/-- How a `fill_audio_data` call ends: normal return, a thrown error,
the read loop hanging, or the decode script running out (artifact). -/
inductive FillOutcome where
  | ok
  | err (e : PipelineError)
  | hang
  | scriptEnd
deriving DecidableEq

/-- Everything external that one `fill_audio_data` call consumes:
success of `avformat_open_input` / `avformat_find_stream_info` /
`avresample_open`, the stream table, the demuxed packets in order, the
decoder's scripted results, and the resampler's per-frame conversion
(`avresample_convert_frame`, `none` = failure). -/
structure FileModel where
  open_ok : Bool
  probe_ok : Bool
  streams : List StreamInfo
  resample_open_ok : Bool
  packets : List RawPacket
  decodeScript : List DecodeResult
  convert : Frame → Option Frame

/-- Lines 92-160: the pipeline stages before the accumulator is
touched, in source order - open, probe, stream selection, decoder
lookup, codec open, channel-layout derivation, resampler open.
Returns the (layout-derived) selected stream. -/
def setup (file : FileModel) : Except PipelineError StreamInfo :=
  if file.open_ok = false then Except.error PipelineError.OpenError
  else if file.probe_ok = false then Except.error PipelineError.ProbeError
  else
    match selectAudioStream file.streams with
    | none => Except.error PipelineError.NoAudioStreamError
    | some st =>
      if st.codec_id_supported = false then Except.error PipelineError.UnsupportedCodecError
      else if st.codec_open_ok = false then Except.error PipelineError.CodecOpenError
      else if file.resample_open_ok = false then Except.error PipelineError.ResampleOpenError
      else Except.ok (deriveChannelLayout st)

/-- The decode loop as run by `fill_audio_data` for the selected
(layout-derived) stream `std`: accumulator metadata set at
lines 163-164, then the loop of lines 166-249. -/
def decodeRun (file : FileModel) (audio : AudioData) (std : StreamInfo) : RunResult :=
  loopGo (std.sample_fmt == SampleFmt.s16) file.convert std.index file.decodeScript
    (initialLoopState
      { audio with frameRate := std.sample_rate, channels := std.channels }
      file.packets)

/-- `fill_audio_data` (lines 86-250): run the setup stages, then the
decode loop. The returned accumulator is the caller's `audio` object
as the function leaves it (also when an error is thrown). -/
def fill_audio_data (file : FileModel) (audio : AudioData) : FillOutcome × AudioData :=
  match setup file with
  | Except.error e => (FillOutcome.err e, audio)
  | Except.ok std =>
      let r := decodeRun file audio std
      match r.outcome with
      | Outcome.done => (FillOutcome.ok, r.state.audio)
      | Outcome.tooManyBadPackets =>
          (FillOutcome.err PipelineError.TooManyBadPacketsError, r.state.audio)
      | Outcome.resampleConvertError =>
          (FillOutcome.err PipelineError.ResampleConvertError, r.state.audio)
      | Outcome.stuck => (FillOutcome.scriptEnd, r.state.audio)
      | Outcome.readHang => (FillOutcome.hang, r.state.audio)

/-- The `std::getline` loop of `split` (lines 318-326), on the
character list of the string: `cur` accumulates the current item in
reverse; a `getline` at end of input with nothing read fails, so a
trailing delimiter produces no empty final item. -/
def splitGo (delim : Char) : List Char → List Char → List (List Char)
  | cur, [] => [cur.reverse]
  | cur, c :: rest =>
      if c = delim then
        match rest with
        | [] => [cur.reverse]
        | _ :: _ => cur.reverse :: splitGo delim [] rest
      else splitGo delim (c :: cur) rest

/-- `split` (lines 329-333): split a string on a delimiter via
repeated `std::getline`; an empty string yields no items. -/
def split (s : String) (delim : Char) : List String :=
  match s.toList with
  | [] => []
  | c :: rest => (splitGo delim [] (c :: rest)).map (fun cs => String.mk cs)

/-- One `getopt_long` result as `main`'s switch sees it: `-h`, an
unrecognized option (`'?'`), `-n` with the lookup result of the
notation table, or a well-formed `-j` / `-i` profile list. -/
inductive OptEvent where
  | optH
  | optUnknown
  | optN (valid : Bool)
  | optJ
  | optI
deriving DecidableEq

/-- Result of the external decode-plus-key-estimation stage inside the
`try` block (lines 421-433): failure means some `std::exception` was
thrown, success carries whether the detected key is `SILENCE`. -/
inductive DecodeOutcome where
  | success (silent : Bool)
  | failure
deriving DecidableEq

/-- What a `main` run produces: the process exit code and the number
of lines printed to stderr and stdout. -/
structure MainResult where
  exitCode : Nat
  errLines : Nat
  outLines : Nat
deriving DecidableEq

/-- The option-processing loop of lines 363-399, with its early
returns: `-h` prints usage to stdout and returns 0; `'?'` prints usage
to stderr and returns 0; an invalid `-n` argument prints one line to
stderr and returns 1; valid `-n`, `-j` and `-i` continue. -/
def processOpts : List OptEvent → Option MainResult
  | [] => none
  | OptEvent.optH :: _ => some ⟨0, 0, 1⟩
  | OptEvent.optUnknown :: _ => some ⟨0, 1, 0⟩
  | OptEvent.optN false :: _ => some ⟨1, 1, 0⟩
  | OptEvent.optN true :: rest => processOpts rest
  | OptEvent.optJ :: rest => processOpts rest
  | OptEvent.optI :: rest => processOpts rest

/-- `main` (lines 335-442): process the options; if no filename
remains, print usage to stderr and return 1; on a caught exception
print one line (`e.what()`) to stderr and return 1; otherwise return 0,
printing the key label unless it is silence. -/
def mainModel (opts : List OptEvent) (hasFilename : Bool) (decode : DecodeOutcome) :
    MainResult :=
  match processOpts opts with
  | some r => r
  | none =>
      if hasFilename = false then ⟨1, 1, 0⟩
      else
        match decode with
        | DecodeOutcome.failure => ⟨1, 1, 0⟩
        | DecodeOutcome.success true => ⟨0, 0, 0⟩
        | DecodeOutcome.success false => ⟨0, 0, 1⟩

/-- Concatenation of the samples of a list of frames, in order. -/
def concatSamples : List Frame → List Int
  | [] => []
  | f :: fs => frameSamples f ++ concatSamples fs

/-- Sum of the per-frame sample counts of a list of frames. -/
def sumSampleCounts : List Frame → Nat
  | [] => 0
  | f :: fs => sample_count f + sumSampleCounts fs

/-- A fresh caller-side accumulator, as `main` constructs it. -/
def emptyAudio : AudioData := ⟨0, 0, [], 0⟩

/-- A well-formed mono S16 audio stream at index 0. -/
def okStream : StreamInfo :=
  { media_type := MediaType.audio, index := 0, codec_id_supported := true,
    codec_open_ok := true, sample_fmt := SampleFmt.s16, sample_rate := 44100,
    channels := 1, channel_layout := 4 }

/-- A frame with a 4-byte primary plane holding the samples 7, 7. -/
def cexFrame : Frame := ⟨4, fun _ => 7⟩

/-- A file that decodes one good frame and then hits 101 bad packets:
102 packets of stream 0, a decode script of one good result followed
by 101 bad results. -/
def cexFile : FileModel :=
  { open_ok := true, probe_ok := true, streams := [okStream],
    resample_open_ok := true,
    packets := List.replicate 102 ⟨0, 4⟩,
    decodeScript := DecodeResult.ok 4 (some cexFrame) :: List.replicate 101 DecodeResult.bad,
    convert := fun _ => none }

/-- A file whose container has no audio-typed stream. -/
def noAudioFile : FileModel :=
  { open_ok := true, probe_ok := true,
    streams := [{ okStream with media_type := MediaType.other }],
    resample_open_ok := true, packets := [], decodeScript := [],
    convert := fun _ => none }

/-- A file that decodes successfully into the two samples 5, 5. -/
def okFile : FileModel :=
  { open_ok := true, probe_ok := true, streams := [okStream],
    resample_open_ok := true, packets := [⟨0, 4⟩],
    decodeScript := [DecodeResult.ok 4 (some ⟨4, fun _ => 5⟩)],
    convert := fun _ => none }

/-- A non-audio (video) stream at index 0. -/
def videoStream : StreamInfo := { okStream with media_type := MediaType.other }

/-- A stereo stream whose channel layout is unset at open time. -/
def unsetStream : StreamInfo := { okStream with channels := 2, channel_layout := 0 }

theorem set_append_cons (pre : List Int) (x v : Int) (rest : List Int) :
    (pre ++ x :: rest).set pre.length v = pre ++ v :: rest := by
  induction pre with
  | nil => rfl
  | cons a l ih => simp [List.set, ih]

theorem writeLoop_spec (g : Nat → Int) :
    ∀ (k i fr ch : Nat) (pre suf : List Int), suf.length = k →
      writeLoop g i k ⟨fr, ch, pre ++ suf, pre.length⟩ =
        ⟨fr, ch, pre ++ (List.range' i k).map g, pre.length + k⟩ := by
  intro k
  induction k with
  | zero =>
      intro i fr ch pre suf h
      have hs : suf = [] := List.length_eq_zero.mp h
      subst hs
      simp [writeLoop]
  | succ n ih =>
      intro i fr ch pre suf h
      cases suf with
      | nil => simp at h
      | cons x suf =>
          have h2 : suf.length = n := by simpa using h
          have step :
              advanceWriteIterator
                (setSampleAtWriteIterator ⟨fr, ch, pre ++ x :: suf, pre.length⟩ (g i)) 1
              = ⟨fr, ch, (pre ++ [g i]) ++ suf, (pre ++ [g i]).length⟩ := by
            simp [setSampleAtWriteIterator, advanceWriteIterator, set_append_cons]
          calc writeLoop g i (n + 1) ⟨fr, ch, pre ++ x :: suf, pre.length⟩
              = writeLoop g (i + 1) n ⟨fr, ch, (pre ++ [g i]) ++ suf, (pre ++ [g i]).length⟩ := by
                rw [← step]; rfl
            _ = ⟨fr, ch, (pre ++ [g i]) ++ (List.range' (i + 1) n).map g,
                  (pre ++ [g i]).length + n⟩ := ih (i + 1) fr ch (pre ++ [g i]) suf h2
            _ = ⟨fr, ch, pre ++ (List.range' i (n + 1)).map g, pre.length + (n + 1)⟩ := by
                rw [List.range'_succ]
                simp [List.append_assoc]
                omega

theorem appendFrame_spec (a : AudioData) (f : Frame) :
    appendFrame a f =
      ⟨a.frameRate, a.channels, a.samples ++ frameSamples f,
        a.samples.length + sample_count f⟩ := by
  have h := writeLoop_spec f.plane0 (sample_count f) 0 a.frameRate a.channels
    a.samples (List.replicate (sample_count f) 0) (by simp)
  have : appendFrame a f =
      writeLoop f.plane0 0 (sample_count f)
        ⟨a.frameRate, a.channels, a.samples ++ List.replicate (sample_count f) 0,
          a.samples.length⟩ := by
    simp [appendFrame, getSampleCount, addToSampleCount, resetIterators,
      advanceWriteIterator]
  rw [this, h]
  simp [frameSamples, List.range_eq_range']

theorem concatSamples_length :
    ∀ fs : List Frame, (concatSamples fs).length = sumSampleCounts fs := by
  intro fs
  induction fs with
  | nil => rfl
  | cons f fs ih => simp [concatSamples, sumSampleCounts, frameSamples, ih]

theorem fetchPhase_fields (target : Int) (s : LoopState) :
    (fetchPhase target s).state.audio = s.audio ∧
    (fetchPhase target s).state.back_packet_count = s.back_packet_count := by
  unfold fetchPhase
  split
  · split
    · exact ⟨rfl, rfl⟩
    · dsimp only
      split
      · exact ⟨rfl, rfl⟩
      · exact ⟨rfl, rfl⟩
  · exact ⟨rfl, rfl⟩

theorem fetch_proceed_fields {target : Int} {s s1 : LoopState}
    (hf : fetchPhase target s = FetchResult.proceed s1) :
    s1.audio = s.audio ∧ s1.back_packet_count = s.back_packet_count := by
  have h := fetchPhase_fields target s
  rw [hf] at h
  exact h

theorem fetch_eof_fields {target : Int} {s s1 : LoopState}
    (hf : fetchPhase target s = FetchResult.eof s1) :
    s1.audio = s.audio ∧ s1.back_packet_count = s.back_packet_count := by
  have h := fetchPhase_fields target s
  rw [hf] at h
  exact h

theorem fetch_hang_fields {target : Int} {s s1 : LoopState}
    (hf : fetchPhase target s = FetchResult.hang s1) :
    s1.audio = s.audio ∧ s1.back_packet_count = s.back_packet_count := by
  have h := fetchPhase_fields target s
  rw [hf] at h
  exact h

@[simp] theorem badState_audio (s1 : LoopState) : (badState s1).audio = s1.audio := rfl

@[simp] theorem badState_count (s1 : LoopState) :
    (badState s1).back_packet_count = s1.back_packet_count + 1 := rfl

@[simp] theorem seekState_audio (s1 : LoopState) (n : Nat) :
    (seekState s1 n).audio = s1.audio := rfl

@[simp] theorem seekState_count (s1 : LoopState) (n : Nat) :
    (seekState s1 n).back_packet_count = s1.back_packet_count := rfl

@[simp] theorem appendState_audio (s2 : LoopState) (cf : Frame) :
    (appendState s2 cf).audio = appendFrame s2.audio cf := rfl

@[simp] theorem appendState_count (s2 : LoopState) (cf : Frame) :
    (appendState s2 cf).back_packet_count = s2.back_packet_count := rfl

theorem loopGo_audio (fmt : Bool) (conv : Frame → Option Frame) (target : Int) :
    ∀ (script : List DecodeResult) (s : LoopState),
      (loopGo fmt conv target script s).state.audio.frameRate = s.audio.frameRate ∧
      (loopGo fmt conv target script s).state.audio.channels = s.audio.channels ∧
      (loopGo fmt conv target script s).state.audio.samples
        = s.audio.samples ++ concatSamples (loopGo fmt conv target script s).frames := by
  intro script
  induction script with
  | nil =>
      intro s
      cases hf : fetchPhase target s with
      | hang s1 =>
          obtain ⟨h1, _⟩ := fetch_hang_fields hf
          simp [loopGo, hf, concatSamples, h1]
      | eof s1 =>
          obtain ⟨h1, _⟩ := fetch_eof_fields hf
          simp [loopGo, hf, concatSamples, h1]
      | proceed s1 =>
          obtain ⟨h1, _⟩ := fetch_proceed_fields hf
          simp [loopGo, hf, concatSamples, h1]
  | cons r rest ih =>
      intro s
      cases r with
      | bad =>
          cases hf : fetchPhase target s with
          | hang s1 =>
              obtain ⟨h1, _⟩ := fetch_hang_fields hf
              simp [loopGo, hf, concatSamples, h1]
          | eof s1 =>
              obtain ⟨h1, _⟩ := fetch_eof_fields hf
              simp [loopGo, hf, concatSamples, h1]
          | proceed s1 =>
              obtain ⟨h1, _⟩ := fetch_proceed_fields hf
              by_cases hc : BAD_PACKET_THRESHOLD < s1.back_packet_count + 1
              · simp [loopGo, hf, if_pos hc, concatSamples, h1]
              · simp only [loopGo, hf, if_neg hc]
                simpa [h1] using ih (badState s1)
      | ok n fr =>
          cases hf : fetchPhase target s with
          | hang s1 =>
              obtain ⟨h1, _⟩ := fetch_hang_fields hf
              simp [loopGo, hf, concatSamples, h1]
          | eof s1 =>
              obtain ⟨h1, _⟩ := fetch_eof_fields hf
              simp [loopGo, hf, concatSamples, h1]
          | proceed s1 =>
              obtain ⟨h1, _⟩ := fetch_proceed_fields hf
              cases fr with
              | none =>
                  simp only [loopGo, hf]
                  simpa [h1] using ih (seekState s1 n)
              | some f =>
                  cases hcv : (if fmt then some f else conv f) with
                  | none =>
                      simp [loopGo, hf, hcv, concatSamples, h1]
                  | some cf =>
                      simp only [loopGo, hf, hcv]
                      have hx := ih (appendState (seekState s1 n) cf)
                      simp only [appendState_audio, seekState_audio,
                        appendFrame_spec, h1] at hx
                      refine ⟨hx.1, hx.2.1, ?_⟩
                      rw [hx.2.2]
                      simp [concatSamples, List.append_assoc]

@[simp] theorem badCount_nil : badCount [] = 0 := rfl

@[simp] theorem badCount_cons_bad (r : List DecodeResult) :
    badCount (DecodeResult.bad :: r) = badCount r + 1 := rfl

@[simp] theorem badCount_cons_ok (n : Nat) (f : Option Frame) (r : List DecodeResult) :
    badCount (DecodeResult.ok n f :: r) = badCount r := rfl

theorem loopGo_badCount (fmt : Bool) (conv : Frame → Option Frame) (target : Int) :
    ∀ (script : List DecodeResult) (s : LoopState),
      ∃ pre, script = pre ++ (loopGo fmt conv target script s).rest ∧
        (loopGo fmt conv target script s).state.back_packet_count
          = s.back_packet_count + badCount pre ∧
        ((loopGo fmt conv target script s).outcome = Outcome.tooManyBadPackets →
          (s.back_packet_count ≤ BAD_PACKET_THRESHOLD →
            (loopGo fmt conv target script s).state.back_packet_count
              = BAD_PACKET_THRESHOLD + 1) ∧
          (BAD_PACKET_THRESHOLD < s.back_packet_count →
            (loopGo fmt conv target script s).state.back_packet_count
              = s.back_packet_count + 1)) ∧
        ((loopGo fmt conv target script s).outcome ≠ Outcome.tooManyBadPackets →
          (loopGo fmt conv target script s).state.back_packet_count ≤ BAD_PACKET_THRESHOLD ∨
            badCount pre = 0) := by
  intro script
  induction script with
  | nil =>
      intro s
      refine ⟨[], ?_⟩
      cases hf : fetchPhase target s with
      | hang s1 =>
          obtain ⟨_, h2⟩ := fetch_hang_fields hf
          simp [loopGo, hf, badCount, h2]
      | eof s1 =>
          obtain ⟨_, h2⟩ := fetch_eof_fields hf
          simp [loopGo, hf, badCount, h2]
      | proceed s1 =>
          obtain ⟨_, h2⟩ := fetch_proceed_fields hf
          simp [loopGo, hf, badCount, h2]
  | cons r rest ih =>
      intro s
      cases r with
      | bad =>
          cases hf : fetchPhase target s with
          | hang s1 =>
              obtain ⟨_, h2⟩ := fetch_hang_fields hf
              exact ⟨[], by simp [loopGo, hf, badCount, h2]⟩
          | eof s1 =>
              obtain ⟨_, h2⟩ := fetch_eof_fields hf
              exact ⟨[], by simp [loopGo, hf, badCount, h2]⟩
          | proceed s1 =>
              obtain ⟨_, h2⟩ := fetch_proceed_fields hf
              by_cases hc : BAD_PACKET_THRESHOLD < s1.back_packet_count + 1
              · refine ⟨[DecodeResult.bad], ?_⟩
                simp only [loopGo, hf, if_pos hc]
                refine ⟨rfl, ?_, ?_, ?_⟩
                · simp only [badCount_cons_bad, badCount_nil]
                  omega
                · intro _
                  exact ⟨fun hle => by omega, fun hgt => by omega⟩
                · intro hne
                  exact absurd rfl hne
              · obtain ⟨pre, e1, e2, e3, e4⟩ := ih (badState s1)
                simp only [loopGo, hf, if_neg hc]
                refine ⟨DecodeResult.bad :: pre, ?_, ?_, ?_, ?_⟩
                · rw [List.cons_append]
                  exact congrArg (List.cons DecodeResult.bad) e1
                · rw [e2]
                  simp only [badState_count, badCount_cons_bad]
                  omega
                · intro hto
                  have hb : (badState s1).back_packet_count ≤ BAD_PACKET_THRESHOLD := by
                    simp only [badState_count]
                    omega
                  have hcnt := (e3 hto).1 hb
                  refine ⟨fun _ => hcnt, fun hgt => ?_⟩
                  exfalso
                  simp only [badState_count] at hb
                  omega
                · intro hne
                  rcases e4 hne with h | h
                  · exact Or.inl h
                  · left
                    rw [e2]
                    simp only [badState_count, h]
                    omega
      | ok n fr =>
          cases hf : fetchPhase target s with
          | hang s1 =>
              obtain ⟨_, h2⟩ := fetch_hang_fields hf
              exact ⟨[], by simp [loopGo, hf, badCount, h2]⟩
          | eof s1 =>
              obtain ⟨_, h2⟩ := fetch_eof_fields hf
              exact ⟨[], by simp [loopGo, hf, badCount, h2]⟩
          | proceed s1 =>
              obtain ⟨_, h2⟩ := fetch_proceed_fields hf
              cases fr with
              | none =>
                  obtain ⟨pre, e1, e2, e3, e4⟩ := ih (seekState s1 n)
                  simp only [loopGo, hf]
                  refine ⟨DecodeResult.ok n none :: pre, ?_, ?_, ?_, ?_⟩
                  · rw [List.cons_append]
                    exact congrArg (List.cons (DecodeResult.ok n none)) e1
                  · rw [e2]
                    simp only [seekState_count, badCount_cons_ok, h2]
                  · intro hto
                    have h3 := e3 hto
                    simp only [seekState_count, h2] at h3
                    exact h3
                  · intro hne
                    rcases e4 hne with h | h
                    · exact Or.inl h
                    · right
                      simp only [badCount_cons_ok, h]
              | some f =>
                  cases hcv : (if fmt then some f else conv f) with
                  | none =>
                      refine ⟨[DecodeResult.ok n (some f)], ?_⟩
                      simp only [loopGo, hf, hcv]
                      refine ⟨rfl, ?_, ?_, ?_⟩
                      · simp only [seekState_count, badCount_cons_ok, badCount_nil, h2]
                        omega
                      · intro hto
                        exact absurd hto (by simp)
                      · intro _
                        right
                        simp only [badCount_cons_ok, badCount_nil]
                  | some cf =>
                      obtain ⟨pre, e1, e2, e3, e4⟩ :=
                        ih (appendState (seekState s1 n) cf)
                      simp only [loopGo, hf, hcv]
                      refine ⟨DecodeResult.ok n (some f) :: pre, ?_, ?_, ?_, ?_⟩
                      · rw [List.cons_append]
                        exact congrArg (List.cons (DecodeResult.ok n (some f))) e1
                      · rw [e2]
                        simp only [appendState_count, seekState_count,
                          badCount_cons_ok, h2]
                      · intro hto
                        have h3 := e3 hto
                        simp only [appendState_count, seekState_count, h2] at h3
                        exact h3
                      · intro hne
                        rcases e4 hne with h | h
                        · exact Or.inl h
                        · right
                          simp only [badCount_cons_ok, h]

theorem fill_snd (file : FileModel) (a : AudioData) (std : StreamInfo)
    (hs : setup file = Except.ok std) :
    (fill_audio_data file a).2 = (decodeRun file a std).state.audio := by
  cases ho : (decodeRun file a std).outcome <;> simp [fill_audio_data, hs, ho]

theorem decodeRun_audio (file : FileModel) (a : AudioData) (std : StreamInfo) :
    (decodeRun file a std).state.audio.frameRate = std.sample_rate ∧
    (decodeRun file a std).state.audio.channels = std.channels ∧
    (decodeRun file a std).state.audio.samples
      = a.samples ++ concatSamples (decodeRun file a std).frames := by
  have h := loopGo_audio (std.sample_fmt == SampleFmt.s16) file.convert std.index
    file.decodeScript
    (initialLoopState
      { a with frameRate := std.sample_rate, channels := std.channels } file.packets)
  exact ⟨h.1, h.2.1, h.2.2⟩

theorem deriveChannelLayout_fields (st : StreamInfo) :
    (deriveChannelLayout st).sample_rate = st.sample_rate ∧
    (deriveChannelLayout st).channels = st.channels ∧
    (deriveChannelLayout st).sample_fmt = st.sample_fmt ∧
    (deriveChannelLayout st).index = st.index ∧
    (deriveChannelLayout st).media_type = st.media_type := by
  unfold deriveChannelLayout
  split <;> exact ⟨rfl, rfl, rfl, rfl, rfl⟩

theorem setup_ok_select {file : FileModel} {std : StreamInfo}
    (hs : setup file = Except.ok std) :
    ∃ st, selectAudioStream file.streams = some st ∧ std = deriveChannelLayout st := by
  unfold setup at hs
  split at hs
  · simp at hs
  · split at hs
    · simp at hs
    · split at hs
      · simp at hs
      · rename_i st hsel
        split at hs
        · simp at hs
        · split at hs
          · simp at hs
          · split at hs
            · simp at hs
            · exact ⟨st, hsel, by injection hs with h; exact h.symm⟩

/-- C1: the claim that after each decode invocation reporting `n ≥ 0`
consumed bytes the packet cursor advances by exactly `n` (with
unconsumed bytes presented to the next invocation without refetching)
fails on the code. Lines 203-209 advance the data pointer and shrink
the size by the cumulative `current_packet_offset` rather than by the
per-call consumed count, and line 176 refetches as soon as the offset
reaches the already-shrunk size. First input: a 100-byte packet, two
decode calls consuming 2 bytes each and producing no frame - the data
pointer ends at offset 6 (the claim implies 4) and the size at 94 (the
claim implies 96), with the total consumed offset at 4. Second input:
a 10-byte packet whose single decode call consumes 6 bytes - the 4
unconsumed bytes are dropped and the next packet, of size 50, is
fetched in their place. -/
theorem decode_cursor_eval :
    (loopGo true (fun _ => none) 0
        [DecodeResult.ok 2 none, DecodeResult.ok 2 none]
        (initialLoopState emptyAudio [⟨0, 100⟩])).state.pkt.dataOff = 6 ∧
    (loopGo true (fun _ => none) 0
        [DecodeResult.ok 2 none, DecodeResult.ok 2 none]
        (initialLoopState emptyAudio [⟨0, 100⟩])).state.current_packet_offset = 4 ∧
    (loopGo true (fun _ => none) 0
        [DecodeResult.ok 2 none, DecodeResult.ok 2 none]
        (initialLoopState emptyAudio [⟨0, 100⟩])).state.pkt.size = 94 ∧
    (loopGo true (fun _ => none) 0
        [DecodeResult.ok 6 none]
        (initialLoopState emptyAudio [⟨0, 10⟩, ⟨0, 50⟩])).state.pkt.size = 50 ∧
    (loopGo true (fun _ => none) 0
        [DecodeResult.ok 6 none]
        (initialLoopState emptyAudio [⟨0, 10⟩, ⟨0, 50⟩])).state.pkt.dataOff = 0 :=
  ⟨rfl, rfl, rfl, rfl, rfl⟩

/-- C2: starting from a zero bad-packet counter, a run of the decode
loop consumes some prefix `pre` of the decode script; the final counter
equals the number of bad results in `pre` (one increment per bad
packet, never reset), the run aborts with too many bad packets exactly
when that number is `BAD_PACKET_THRESHOLD + 1` (the 101st bad packet),
and a run that does not abort has seen at most `BAD_PACKET_THRESHOLD`
bad packets. Each tolerated bad packet discards the remainder of the
current packet (offset and size zeroed, forcing a refetch) and decoding
continues. -/
theorem bad_packet_policy (fmt : Bool) (conv : Frame → Option Frame) (target : Int)
    (script : List DecodeResult) (s : LoopState)
    (h : s.back_packet_count = 0) :
    (∃ pre, script = pre ++ (loopGo fmt conv target script s).rest ∧
      (loopGo fmt conv target script s).state.back_packet_count = badCount pre ∧
      ((loopGo fmt conv target script s).outcome = Outcome.tooManyBadPackets ↔
        badCount pre = BAD_PACKET_THRESHOLD + 1) ∧
      ((loopGo fmt conv target script s).outcome ≠ Outcome.tooManyBadPackets →
        badCount pre ≤ BAD_PACKET_THRESHOLD)) ∧
    (∀ (rest : List DecodeResult) (s1 : LoopState),
      fetchPhase target s = FetchResult.proceed s1 →
      s1.back_packet_count < BAD_PACKET_THRESHOLD →
      loopGo fmt conv target (DecodeResult.bad :: rest) s
        = loopGo fmt conv target rest (badState s1)) := by
  constructor
  · obtain ⟨pre, e1, e2, e3, e4⟩ := loopGo_badCount fmt conv target script s
    have hC : (loopGo fmt conv target script s).state.back_packet_count
        = badCount pre := by
      rw [e2, h, Nat.zero_add]
    refine ⟨pre, e1, hC, ?_, ?_⟩
    · constructor
      · intro hto
        have h1 := (e3 hto).1 (by rw [h]; exact Nat.zero_le _)
        omega
      · intro hbc
        by_contra hne
        rcases e4 hne with hle | h0
        · omega
        · omega
    · intro hne
      rcases e4 hne with hle | h0
      · omega
      · omega
  · intro rest s1 hf hc
    have hlt : ¬ BAD_PACKET_THRESHOLD < s1.back_packet_count + 1 := by omega
    simp only [loopGo, hf, if_neg hlt]

/-- C2 witness: a run over a script of 101 bad results with 101
one-stream packets aborts with too many bad packets, the counter
ending at 101. -/
theorem bad_packet_policy_witness :
    (loopGo true (fun _ => none) 0 (List.replicate 101 DecodeResult.bad)
      (initialLoopState emptyAudio (List.replicate 101 ⟨0, 4⟩))).outcome
        = Outcome.tooManyBadPackets ∧
    (loopGo true (fun _ => none) 0 (List.replicate 101 DecodeResult.bad)
      (initialLoopState emptyAudio
        (List.replicate 101 ⟨0, 4⟩))).state.back_packet_count = 101 := by
  obtain ⟨⟨pre, e1, e2, e3, _⟩, _⟩ :=
    bad_packet_policy true (fun _ => none) 0 (List.replicate 101 DecodeResult.bad)
      (initialLoopState emptyAudio (List.replicate 101 ⟨0, 4⟩)) rfl
  have hrest : (loopGo true (fun _ => none) 0 (List.replicate 101 DecodeResult.bad)
      (initialLoopState emptyAudio (List.replicate 101 ⟨0, 4⟩))).rest = [] := by rfl
  rw [hrest, List.append_nil] at e1
  have hbc : badCount pre = 101 := by rw [← e1]; rfl
  exact ⟨e3.mpr (by rw [hbc]; decide), by rw [e2, hbc]⟩

/-- C3 counterexample: the claim that every error of the taxonomy
leaves the caller's SampleAccumulator untouched is false. On a file
that decodes one good frame and then hits 101 bad packets,
`fill_audio_data` throws `TooManyBadPacketsError` while the accumulator
already carries the two appended samples and the frame rate set at
lines 163-164 - it is not equal to the untouched accumulator. -/
theorem late_error_mutates_accumulator :
    (fill_audio_data cexFile emptyAudio).1
      = FillOutcome.err PipelineError.TooManyBadPacketsError ∧
    (fill_audio_data cexFile emptyAudio).2.samples = [7, 7] ∧
    (fill_audio_data cexFile emptyAudio).2.frameRate = 44100 ∧
    (fill_audio_data cexFile emptyAudio).2 ≠ emptyAudio :=
  ⟨rfl, rfl, rfl, by decide⟩

/-- C3 (amended): an error raised before the decode loop starts -
`OpenError`, `ProbeError`, `NoAudioStreamError`, `UnsupportedCodecError`,
`CodecOpenError` or `ResampleOpenError` - leaves the caller's
SampleAccumulator exactly as it was; only `TooManyBadPacketsError` and
`ResampleConvertError`, raised inside the loop, can leave it modified
(the caller then discards it, so no output is emitted). -/
theorem early_error_leaves_accumulator (file : FileModel) (a : AudioData)
    (e : PipelineError)
    (h : (fill_audio_data file a).1 = FillOutcome.err e)
    (h1 : e ≠ PipelineError.TooManyBadPacketsError)
    (h2 : e ≠ PipelineError.ResampleConvertError) :
    (fill_audio_data file a).2 = a := by
  cases hs : setup file with
  | error e2 => simp [fill_audio_data, hs]
  | ok std =>
      exfalso
      cases ho : (decodeRun file a std).outcome <;>
        simp [fill_audio_data, hs, ho] at h
      · exact h1 h.symm
      · exact h2 h.symm

/-- C3 witness: a file with no audio stream fails with
`NoAudioStreamError` and the accumulator is returned untouched. -/
theorem early_error_leaves_accumulator_witness :
    (fill_audio_data noAudioFile emptyAudio).2 = emptyAudio :=
  early_error_leaves_accumulator noAudioFile emptyAudio
    PipelineError.NoAudioStreamError rfl (by decide) (by decide)

/-- C4: on a successful decode, the final sample sequence is the
caller's samples followed by the samples of every produced canonical
frame, in frame and sample order (existing samples are never
rewritten); the final length is the initial length plus the sum of the
per-frame sample counts; and a frame's sample count is its primary
data-plane byte length divided by two. -/
theorem samples_append_exact (file : FileModel) (a : AudioData) (std : StreamInfo)
    (hs : setup file = Except.ok std)
    (_hok : (fill_audio_data file a).1 = FillOutcome.ok) :
    (fill_audio_data file a).2.samples
      = a.samples ++ concatSamples (decodeRun file a std).frames ∧
    (fill_audio_data file a).2.samples.length
      = a.samples.length + sumSampleCounts (decodeRun file a std).frames ∧
    ∀ f : Frame, (frameSamples f).length = f.linesize0 / 2 := by
  have h2 := fill_snd file a std hs
  have hd := decodeRun_audio file a std
  refine ⟨by rw [h2]; exact hd.2.2, ?_, ?_⟩
  · rw [h2, hd.2.2]
    simp [concatSamples_length]
  · intro f
    simp [frameSamples, sample_count]

/-- C4 witness: the one-frame file decodes to exactly the two frame
samples, length 2. -/
theorem samples_append_exact_witness :
    (fill_audio_data okFile emptyAudio).2.samples = [5, 5] ∧
    (fill_audio_data okFile emptyAudio).2.samples.length = 2 := by
  have h := samples_append_exact okFile emptyAudio okStream rfl rfl
  exact ⟨h.1.trans rfl, h.2.1.trans rfl⟩

/-- C5: the resampler is configured with output rate equal to input
rate, output channel layout equal to input channel layout, and output
sample format S16 (the input format being the stream's native one); and
on a successful decode the accumulator's frame rate and channel count
equal the selected stream's native rate and channel count. -/
theorem format_only_resample (file : FileModel) (a : AudioData) (st : StreamInfo)
    (hsel : selectAudioStream file.streams = some st) :
    (configResampler (deriveChannelLayout st)).out_sample_rate
      = (configResampler (deriveChannelLayout st)).in_sample_rate ∧
    (configResampler (deriveChannelLayout st)).out_channel_layout
      = (configResampler (deriveChannelLayout st)).in_channel_layout ∧
    (configResampler (deriveChannelLayout st)).out_sample_fmt = SampleFmt.s16 ∧
    (configResampler (deriveChannelLayout st)).in_sample_rate = st.sample_rate ∧
    (configResampler (deriveChannelLayout st)).in_sample_fmt = st.sample_fmt ∧
    ((fill_audio_data file a).1 = FillOutcome.ok →
      (fill_audio_data file a).2.frameRate = st.sample_rate ∧
      (fill_audio_data file a).2.channels = st.channels) := by
  refine ⟨rfl, rfl, rfl, (deriveChannelLayout_fields st).1,
    (deriveChannelLayout_fields st).2.2.1, ?_⟩
  intro hok
  cases hs : setup file with
  | error e2 => simp [fill_audio_data, hs] at hok
  | ok std =>
      obtain ⟨st0, hsel0, hstd⟩ := setup_ok_select hs
      rw [hsel] at hsel0
      injection hsel0 with hst
      subst hst
      have hf2 := fill_snd file a std hs
      have hd := decodeRun_audio file a std
      rw [hf2]
      subst hstd
      exact ⟨hd.1.trans (deriveChannelLayout_fields st).1,
        hd.2.1.trans (deriveChannelLayout_fields st).2.1⟩

/-- C5 witness: the one-frame 44100 Hz mono file fills the accumulator
with its native rate and channel count. -/
theorem format_only_resample_witness :
    (fill_audio_data okFile emptyAudio).2.frameRate = 44100 ∧
    (fill_audio_data okFile emptyAudio).2.channels = 1 := by
  have h := (format_only_resample okFile emptyAudio okStream rfl).2.2.2.2.2 rfl
  exact ⟨h.1.trans rfl, h.2.trans rfl⟩

/-- C6: stream selection returns the first audio-typed stream in
container order (all streams before it are non-audio); if none is
selected every stream is non-audio, and an opened, probed file with no
audio-typed stream makes the pipeline fail with `NoAudioStreamError`,
the accumulator untouched. -/
theorem first_audio_stream :
    (∀ (streams : List StreamInfo) (st : StreamInfo),
      selectAudioStream streams = some st →
        st.media_type = MediaType.audio ∧
        ∃ pre post, streams = pre ++ st :: post ∧
          ∀ x ∈ pre, x.media_type ≠ MediaType.audio) ∧
    (∀ streams : List StreamInfo,
      selectAudioStream streams = none →
        ∀ x ∈ streams, x.media_type ≠ MediaType.audio) ∧
    (∀ (file : FileModel) (a : AudioData),
      file.open_ok = true → file.probe_ok = true →
      selectAudioStream file.streams = none →
      fill_audio_data file a
        = (FillOutcome.err PipelineError.NoAudioStreamError, a)) := by
  refine ⟨?_, ?_, ?_⟩
  · intro streams
    induction streams with
    | nil => intro st h; simp [selectAudioStream] at h
    | cons y ys ih =>
        intro st h
        by_cases hy : y.media_type = MediaType.audio
        · simp only [selectAudioStream, if_pos hy] at h
          injection h with h
          subst h
          exact ⟨hy, [], ys, rfl, by simp⟩
        · simp only [selectAudioStream, if_neg hy] at h
          obtain ⟨ha, pre, post, heq, hpre⟩ := ih st h
          refine ⟨ha, y :: pre, post, ?_, ?_⟩
          · rw [List.cons_append]
            exact congrArg (List.cons y) heq
          · intro x hx
            rcases List.mem_cons.mp hx with rfl | hx2
            · exact hy
            · exact hpre x hx2
  · intro streams
    induction streams with
    | nil =>
        intro _ x hx
        simp at hx
    | cons y ys ih =>
        intro h x hx
        by_cases hy : y.media_type = MediaType.audio
        · simp [selectAudioStream, if_pos hy] at h
        · simp only [selectAudioStream, if_neg hy] at h
          rcases List.mem_cons.mp hx with rfl | hx2
          · exact hy
          · exact ih h x hx2
  · intro file a h1 h2 h3
    simp [fill_audio_data, setup, h1, h2, h3]

/-- C6 witness: with a video stream first, the audio stream behind it
is the one selected; a file with only non-audio streams fails with
`NoAudioStreamError`. -/
theorem first_audio_stream_witness :
    selectAudioStream [videoStream, okStream] = some okStream ∧
    okStream.media_type = MediaType.audio ∧
    fill_audio_data noAudioFile emptyAudio
      = (FillOutcome.err PipelineError.NoAudioStreamError, emptyAudio) := by
  refine ⟨rfl, ?_, ?_⟩
  · exact (first_audio_stream.1 [videoStream, okStream] okStream rfl).1
  · exact first_audio_stream.2.2 noAudioFile emptyAudio rfl rfl rfl

/-- C7 counterexample: the claim that every argument error exits with
code 1 is false - an unrecognized option (`getopt` returning `'?'`,
line 371-373) prints the usage line to the error stream but returns 0. -/
theorem unknown_option_exit_zero :
    mainModel [OptEvent.optUnknown] true (DecodeOutcome.success false) = ⟨0, 1, 0⟩ ∧
    (mainModel [OptEvent.optUnknown] true (DecodeOutcome.success false)).exitCode ≠ 1 :=
  ⟨rfl, by decide⟩

/-- C7 (amended): the CLI exits 0 on success (one stdout line for the
key label, none for silence) and exits 1 with one line on the error
stream for every decode error, for an invalid notation argument and for
a missing filename; an unrecognized option, however, prints the usage
line to the error stream and exits 0 (and `-h` prints usage to stdout
and exits 0). -/
theorem exit_code_policy :
    (∀ (opts : List OptEvent) (b : Bool), processOpts opts = none →
      (mainModel opts true (DecodeOutcome.success b)).exitCode = 0) ∧
    (∀ opts : List OptEvent, processOpts opts = none →
      mainModel opts true DecodeOutcome.failure = ⟨1, 1, 0⟩) ∧
    (∀ (opts : List OptEvent) (d : DecodeOutcome), processOpts opts = none →
      mainModel opts false d = ⟨1, 1, 0⟩) ∧
    (∀ (rest : List OptEvent) (hf : Bool) (d : DecodeOutcome),
      mainModel (OptEvent.optUnknown :: rest) hf d = ⟨0, 1, 0⟩) ∧
    (∀ (rest : List OptEvent) (hf : Bool) (d : DecodeOutcome),
      mainModel (OptEvent.optN false :: rest) hf d = ⟨1, 1, 0⟩) ∧
    (∀ (rest : List OptEvent) (hf : Bool) (d : DecodeOutcome),
      mainModel (OptEvent.optH :: rest) hf d = ⟨0, 0, 1⟩) := by
  refine ⟨?_, ?_, ?_, ?_, ?_, ?_⟩
  · intro opts b h
    cases b <;> simp [mainModel, h]
  · intro opts h
    simp [mainModel, h]
  · intro opts d h
    simp [mainModel, h]
  · intro rest hf d
    simp [mainModel, processOpts]
  · intro rest hf d
    simp [mainModel, processOpts]
  · intro rest hf d
    simp [mainModel, processOpts]

/-- C7 witness: with no options, success exits 0, a decode error exits
1 with one stderr line, and a missing filename exits 1 with one stderr
line. -/
theorem exit_code_policy_witness :
    (mainModel [] true (DecodeOutcome.success false)).exitCode = 0 ∧
    mainModel [] true DecodeOutcome.failure = ⟨1, 1, 0⟩ ∧
    mainModel [] false DecodeOutcome.failure = ⟨1, 1, 0⟩ :=
  ⟨exit_code_policy.1 [] false rfl, exit_code_policy.2.1 [] rfl,
    exit_code_policy.2.2.1 [] DecodeOutcome.failure rfl⟩

/-- C8 counterexample: the claim that `readNext` terminates for every
container and target stream index is false. Once the container is
exhausted, `av_read_frame` leaves the packet blank with stream index 0;
for target stream index 1 the loop body maps the exhausted state to
itself with the exit test false, so the read loop never exits (here
witnessed up to 1000 iterations). -/
theorem read_eof_nonzero_target_spins :
    readStep ⟨[], blankPacket⟩ = ⟨[], blankPacket⟩ ∧
    breakCond ⟨[], blankPacket⟩ 1 = false ∧
    readFuel 100 ⟨[], blankPacket⟩ 1 = none :=
  ⟨rfl, rfl, by decide⟩

/-- C8 (amended): the read loop terminates within `container length + 1`
iterations, returning a packet of the target stream, whenever the
container still holds a matching unit or the target stream index is 0
(the blank packet's index at exhaustion, whose zero size then signals
end of stream); and when the fetch phase reports end of stream the
decode loop terminates successfully. -/
theorem read_terminates_or_eof :
    (∀ (cont : List RawPacket) (pkt : PacketState) (target : Int),
      (target = 0 ∨ ∃ p ∈ cont, p.stream_index = target) →
      ∃ r, readFuel (cont.length + 1) ⟨cont, pkt⟩ target = some r ∧
        r.pkt.stream_index = target) ∧
    (∀ (fmt : Bool) (conv : Frame → Option Frame) (target : Int)
        (script : List DecodeResult) (s s1 : LoopState),
      fetchPhase target s = FetchResult.eof s1 →
      (loopGo fmt conv target script s).outcome = Outcome.done) := by
  constructor
  · intro cont
    induction cont with
    | nil =>
        intro pkt target h
        rcases h with rfl | ⟨p, hp, _⟩
        · exact ⟨⟨[], blankPacket⟩, by simp [readFuel, readStep, breakCond, blankPacket], rfl⟩
        · simp at hp
    | cons p rest ih =>
        intro pkt target h
        by_cases hmatch : p.stream_index = target
        · refine ⟨⟨rest, ⟨p.stream_index, 0, (p.size : Int)⟩⟩, ?_, hmatch⟩
          simp [readFuel, readStep, breakCond, hmatch]
        · have h2 : target = 0 ∨ ∃ q ∈ rest, q.stream_index = target := by
            rcases h with rfl | ⟨q, hq, hqs⟩
            · exact Or.inl rfl
            · rcases List.mem_cons.mp hq with rfl | hq2
              · exact absurd hqs hmatch
              · exact Or.inr ⟨q, hq2, hqs⟩
          obtain ⟨r, hr, hrs⟩ := ih ⟨p.stream_index, 0, (p.size : Int)⟩ target h2
          refine ⟨r, ?_, hrs⟩
          have hstep : readStep ⟨p :: rest, pkt⟩
              = ⟨rest, ⟨p.stream_index, 0, (p.size : Int)⟩⟩ := rfl
          have hbc : breakCond ⟨rest, ⟨p.stream_index, 0, (p.size : Int)⟩⟩ target
              = false := by simp [breakCond, hmatch]
          have key : readFuel ((p :: rest).length + 1) ⟨p :: rest, pkt⟩ target
              = readFuel (p :: rest).length
                  ⟨rest, ⟨p.stream_index, 0, (p.size : Int)⟩⟩ target := by
            rw [readFuel, hstep, hbc]
            simp
          rw [key, List.length_cons]
          exact hr
  · intro fmt conv target script s s1 hf
    cases script with
    | nil => simp [loopGo, hf]
    | cons r rest =>
        cases r with
        | bad => simp [loopGo, hf]
        | ok n fr => simp [loopGo, hf]

/-- C8 witness: with the audio stream at index 0 behind a stream-1 unit,
the read loop terminates with a packet of stream 0. -/
theorem read_terminates_or_eof_witness :
    (readFuel (([⟨1, 4⟩, ⟨0, 8⟩] : List RawPacket).length + 1)
      ⟨[⟨1, 4⟩, ⟨0, 8⟩], blankPacket⟩ 0).isSome = true ∧
    ((readFuel (([⟨1, 4⟩, ⟨0, 8⟩] : List RawPacket).length + 1)
      ⟨[⟨1, 4⟩, ⟨0, 8⟩], blankPacket⟩ 0).getD
        ⟨[], blankPacket⟩).pkt.stream_index = 0 := by
  obtain ⟨r, hr, hs⟩ :=
    read_terminates_or_eof.1 [⟨1, 4⟩, ⟨0, 8⟩] blankPacket 0 (Or.inl rfl)
  rw [hr]
  exact ⟨rfl, hs⟩

/-- C9: when the stream's channel layout is unset (zero) it is replaced
by the default layout implied by the channel count, and otherwise the
stream is unchanged; the derivation changes no field other than the
channel layout, and the resampler input (and output) layout is the
derived one. -/
theorem derive_layout_only (st : StreamInfo) :
    (st.channel_layout = 0 →
      deriveChannelLayout st
        = { st with channel_layout := av_get_default_channel_layout st.channels }) ∧
    (st.channel_layout ≠ 0 → deriveChannelLayout st = st) ∧
    (deriveChannelLayout st).channels = st.channels ∧
    (deriveChannelLayout st).sample_rate = st.sample_rate ∧
    (deriveChannelLayout st).sample_fmt = st.sample_fmt ∧
    (deriveChannelLayout st).media_type = st.media_type ∧
    (deriveChannelLayout st).index = st.index ∧
    (deriveChannelLayout st).codec_id_supported = st.codec_id_supported ∧
    (deriveChannelLayout st).codec_open_ok = st.codec_open_ok ∧
    (configResampler (deriveChannelLayout st)).in_channel_layout
      = (if st.channel_layout = 0 then av_get_default_channel_layout st.channels
          else st.channel_layout) ∧
    (configResampler (deriveChannelLayout st)).out_channel_layout
      = (configResampler (deriveChannelLayout st)).in_channel_layout := by
  unfold deriveChannelLayout
  by_cases h : st.channel_layout = 0 <;> simp [h, configResampler]

/-- C9 witness: the stereo stream with unset layout gets the standard
stereo mask 0x3 while its channel count stays 2. -/
theorem derive_layout_only_witness :
    (deriveChannelLayout unsetStream).channel_layout = 3 ∧
    (deriveChannelLayout unsetStream).channels = 2 := by
  have h := derive_layout_only unsetStream
  refine ⟨?_, h.2.2.1⟩
  rw [h.1 rfl]
  decide

/-- C10: for every `-j`/`-i` argument string, reading the split list at
indices `0 .. SEMITONES - 1` stays in bounds exactly when the argument
has at least `SEMITONES` (12) comma-separated fields, and there is an
argument with fewer fields (three), for which index access is out of
bounds. -/
theorem profile_split_bounds :
    (∀ arg : String,
      (∀ s : Nat, s < SEMITONES → s < (split arg ',').length) ↔
        SEMITONES ≤ (split arg ',').length) ∧
    (split "7.23,3.50,3.58" ',').length < SEMITONES := by
  constructor
  · intro arg
    constructor
    · intro h
      have h11 := h (SEMITONES - 1) (by decide)
      omega
    · intro h s hs
      omega
  · decide

/-- C10 witness: a 12-field argument keeps every profile index in
bounds. -/
theorem profile_split_bounds_witness :
    (5 : Nat) < (split "0,1,2,3,4,5,6,7,8,9,10,11" ',').length :=
  (profile_split_bounds.1 "0,1,2,3,4,5,6,7,8,9,10,11").mpr (by decide) 5 (by decide)

end KeyfinderCli
